import Mathlib

/-!
Shallow embedding of the swing-trading bot's algorithmic core:
`src/indicators.py`, `src/strategy.py` and `src/risk_manager.py`.

Modelling conventions:
* Prices, capital and probabilities are exact rationals (`ℚ`).
* A pandas series is a `List ℚ` in chronological order; `iloc[-k]` is
  `ilocNeg xs k`.
* A pandas `NaN` entry is `Option.none`; any float comparison against `NaN`
  is false, which `nanLt` reproduces.
* Bollinger bands involve a square root, so band series carry `Option ℝ`
  (`none` for the not-yet-populated rolling-window prefix).
-/

namespace Virgolino

/-- Element at pandas negative index `-k` (so `ilocNeg xs 1` is the last bar). -/
def ilocNeg {α : Type} (xs : List α) (k : ℕ) : Option α :=
  xs.get? (xs.length - k)

/-- Float comparison `a < b` with NaN-propagation: any comparison in which one
side is `none` (NaN) is false. -/
def nanLt {α : Type} [LinearOrder α] (a b : Option α) : Bool :=
  match a, b with
  | some x, some y => decide (x < y)
  | _, _ => false

/-- Sequence of one-bar differences of `close` (`close.diff()` in
`calculate_rsi`): entry 0 is NaN, entry `j` is `close[j] - close[j-1]`. -/
def deltasList (xs : List ℚ) : List (Option ℚ) :=
  match xs with
  | [] => []
  | _ :: tail => none :: tail.zipWith (fun a b => some (a - b)) xs

/-- Per-bar gains, `delta.where(delta > 0, 0)`: the positive deltas, with
zero elsewhere (the leading NaN also becomes 0, as in pandas `where`). -/
def gainsList (xs : List ℚ) : List ℚ :=
  (deltasList xs).map (fun d =>
    match d with
    | some x => if 0 < x then x else 0
    | none => 0)

/-- Per-bar losses, `(-delta.where(delta < 0, 0))`: the negated negative
deltas, with zero elsewhere. -/
def lossesList (xs : List ℚ) : List ℚ :=
  (deltasList xs).map (fun d =>
    match d with
    | some x => if x < 0 then -x else 0
    | none => 0)

/-- The trailing window of `period` entries ending at index `i`
(what `rolling(window=period)` aggregates at position `i`); `none` when the
window is not fully populated or `i` is out of range. -/
def windowAt (xs : List ℚ) (period i : ℕ) : Option (List ℚ) :=
  if period ≤ i + 1 ∧ i < xs.length then
    some ((xs.take (i + 1)).drop (i + 1 - period))
  else none

/-- Rolling mean at index `i` (`rolling(window=period).mean()`). -/
def rollingMeanAt (xs : List ℚ) (period i : ℕ) : Option ℚ :=
  (windowAt xs period i).map (fun w => w.sum / (period : ℚ))

/-- RSI from an average gain and an average loss, following the float
semantics of `100 - (100 / (1 + gain/loss))`:
with `loss = 0` and `gain ≠ 0` the ratio is infinite and the RSI is 100;
with `loss = 0 = gain` the ratio is NaN and so is the RSI. -/
def rsiFromAvg (g l : ℚ) : Option ℚ :=
  if l = 0 then (if g = 0 then none else some 100)
  else some (100 - 100 / (1 + g / l))

/-- RSI value at index `i` of `calculate_rsi(close, period)`. -/
def rsiAt (close : List ℚ) (period i : ℕ) : Option ℚ :=
  match rollingMeanAt (gainsList close) period i,
        rollingMeanAt (lossesList close) period i with
  | some g, some l => rsiFromAvg g l
  | _, _ => none

/-- Unbiased sample variance of the trailing window (pandas
`rolling(window=period).std()` uses `ddof=1`, hence the `period - 1`
denominator; a single-element window gives NaN). -/
def sampleVarAt (xs : List ℚ) (period i : ℕ) : Option ℚ :=
  match windowAt xs period i with
  | none => none
  | some w =>
      if period ≤ 1 then none
      else
        some (((w.map (fun x => (x - w.sum / (period : ℚ)) ^ 2)).sum)
                / ((period : ℚ) - 1))

/-- Lower Bollinger band series of `calculate_bollinger_bands`:
rolling mean minus `std_dev` times the rolling standard deviation. -/
noncomputable def bollingerLower (xs : List ℚ) (period : ℕ) (std_dev : ℚ) :
    List (Option ℝ) :=
  (List.range xs.length).map (fun i =>
    match rollingMeanAt xs period i, sampleVarAt xs period i with
    | some m, some v => some ((m : ℝ) + (std_dev : ℝ) * Real.sqrt (v : ℝ) * (-1))
    | _, _ => none)

/-- Upper Bollinger band series of `calculate_bollinger_bands`. -/
noncomputable def bollingerUpper (xs : List ℚ) (period : ℕ) (std_dev : ℚ) :
    List (Option ℝ) :=
  (List.range xs.length).map (fun i =>
    match rollingMeanAt xs period i, sampleVarAt xs period i with
    | some m, some v => some ((m : ℝ) + (std_dev : ℝ) * Real.sqrt (v : ℝ))
    | _, _ => none)

/-- Embedding of `detect_bb_lower_reversal(close, lower_band, lookback)`:
requires `lookback+1` bars on both series, loops `i` over
`range(-lookback, 0)` (offsets `lookback` down to `1`, so the current bar is
included) testing `close.iloc[i] < lower_band.iloc[i]`, and requires the
current close back above the band. -/
def detect_bb_lower_reversal {α : Type} [LinearOrder α]
    (close : List α) (lower_band : List (Option α)) (lookback : ℕ) : Bool :=
  if close.length < lookback + 1 ∨ lower_band.length < lookback + 1 then
    false
  else
    ((List.range lookback).any (fun j =>
        nanLt (ilocNeg close (j + 1)) ((ilocNeg lower_band (j + 1)).join))
      && nanLt ((ilocNeg lower_band 1).join) (ilocNeg close 1))

/-- Embedding of `detect_bb_upper_reversal(close, upper_band, lookback)`. -/
def detect_bb_upper_reversal {α : Type} [LinearOrder α]
    (close : List α) (upper_band : List (Option α)) (lookback : ℕ) : Bool :=
  if close.length < lookback + 1 ∨ upper_band.length < lookback + 1 then
    false
  else
    ((List.range lookback).any (fun j =>
        nanLt ((ilocNeg upper_band (j + 1)).join) (ilocNeg close (j + 1)))
      && nanLt (ilocNeg close 1) ((ilocNeg upper_band 1).join))

/-- Embedding of `calculate_spot_change_pct(close, lookback_candles)`. -/
def calculate_spot_change_pct (close : List ℚ) (lookback_candles : ℕ) : ℚ :=
  if close.length < lookback_candles + 1 then 0
  else
    let old_price := (ilocNeg close (lookback_candles + 1)).getD 0
    let current_price := (ilocNeg close 1).getD 0
    if old_price = 0 then 0
    else (current_price - old_price) / old_price * 100

/-- Embedding of `calculate_support_resistance(close, lookback)`:
min and max of the trailing `lookback` closes, with a ±1% fallback when the
history is shorter than `lookback`. -/
def calculate_support_resistance (close : List ℚ) (lookback : ℕ) : ℚ × ℚ :=
  if close.length < lookback then
    (((ilocNeg close 1).getD 0) * (99 / 100),
     ((ilocNeg close 1).getD 0) * (101 / 100))
  else
    match close.drop (close.length - lookback) with
    | [] => (0, 0)
    | h :: t => (t.foldl min h, t.foldl max h)

/-- Parameters of `SwingStrategy.__init__` (`src/strategy.py`): the RSI
period is the one per-asset parameter, the rest are fixed constants. -/
structure SwingStrategy where
  rsi_period : ℕ
  rsi_oversold : ℚ
  rsi_overbought : ℚ
  bb_period : ℕ
  bb_std : ℚ
  divergence_threshold : ℚ
deriving DecidableEq

/-- A `SwingStrategy` as built by `__init__`: constants 30/70, Bollinger
(20, 2) and a 10-point divergence threshold, with the given RSI period. -/
def mkSwingStrategy (period : ℕ) : SwingStrategy :=
  { rsi_period := period
    rsi_oversold := 30
    rsi_overbought := 70
    bb_period := 20
    bb_std := 2
    divergence_threshold := 10 }

/-- `calculate_implied_probability`: 50 plus ten probability points per 1%
spot move. -/
def calculate_implied_probability (spot_change_pct : ℚ) : ℚ :=
  50 + spot_change_pct * 10

/-- `detect_divergence`: implied probability minus the market's odds in
percentage points. -/
def detect_divergence (spot_change_pct polymarket_odds : ℚ) : ℚ :=
  calculate_implied_probability spot_change_pct - polymarket_odds * 100

/-- Result dictionary of `analyze_market`. The `rsi` field is an
`Option ℚ` because the latest RSI can be NaN. -/
structure AnalysisResult where
  signal : String
  confidence : ℚ
  rsi : Option ℚ
  spot_change_pct : ℚ
  divergence : ℚ
  bb_reversal : Bool
  support : ℚ
  resistance : ℚ
deriving DecidableEq

/-- The initial all-zero result dictionary of `analyze_market`, returned
unchanged when the history is too short. -/
def neutralResult : AnalysisResult :=
  { signal := "NEUTRAL"
    confidence := 0
    rsi := some 0
    spot_change_pct := 0
    divergence := 0
    bb_reversal := false
    support := 0
    resistance := 0 }

/-- Latest RSI of the history, `calculate_rsi(close, period).iloc[-1]`. -/
def rsiLatest (close : List ℚ) (period : ℕ) : Option ℚ :=
  rsiAt close period (close.length - 1)

/-- The strategy's call
`detect_bb_lower_reversal(close, lower_bb)` on the bands it computed. -/
noncomputable def bbBullishOf (close : List ℚ) (period : ℕ) (std_dev : ℚ) :
    Bool :=
  detect_bb_lower_reversal (close.map (fun q => (q : ℝ)))
    (bollingerLower close period std_dev) 3

/-- The strategy's call `detect_bb_upper_reversal(close, upper_bb)`. -/
noncomputable def bbBearishOf (close : List ℚ) (period : ℕ) (std_dev : ℚ) :
    Bool :=
  detect_bb_upper_reversal (close.map (fun q => (q : ℝ)))
    (bollingerUpper close period std_dev) 3

/-- Embedding of `SwingStrategy.analyze_market(history_df, polymarket_up_odds)`
(`src/strategy.py`, the early length guard plus the signal-generation
if/elif chain). -/
noncomputable def analyze_market (s : SwingStrategy) (history : List ℚ)
    (polymarket_up_odds : ℚ) : AnalysisResult :=
  if history.length < s.bb_period + 5 then neutralResult
  else
    let current_price := (ilocNeg history 1).getD 0
    let current_rsi := rsiLatest history s.rsi_period
    let bb_bullish := bbBullishOf history s.bb_period s.bb_std
    let bb_bearish := bbBearishOf history s.bb_period s.bb_std
    let spot_change := calculate_spot_change_pct history 1
    let divergence := detect_divergence spot_change polymarket_up_odds
    let sr := calculate_support_resistance history 20
    let sc : String × ℚ :=
      if nanLt current_rsi (some s.rsi_oversold) then
        (if s.divergence_threshold < divergence then ("UP", 9 / 10)
         else if bb_bullish then ("UP", 85 / 100)
         else if |current_price - sr.1| / current_price < 5 / 1000 then
           ("UP", 8 / 10)
         else ("NEUTRAL", 0))
      else if nanLt (some s.rsi_overbought) current_rsi then
        (if divergence < -s.divergence_threshold then ("DOWN", 9 / 10)
         else if bb_bearish then ("DOWN", 85 / 100)
         else if |current_price - sr.2| / current_price < 5 / 1000 then
           ("DOWN", 8 / 10)
         else ("NEUTRAL", 0))
      else ("NEUTRAL", 0)
    { signal := sc.1
      confidence := sc.2
      rsi := current_rsi
      spot_change_pct := spot_change
      divergence := divergence
      bb_reversal := bb_bullish || bb_bearish
      support := sr.1
      resistance := sr.2 }

/-- Decision table transcribed from the specification's words (§4.2 step 7):
first-match-wins, two mutually exclusive RSI branches with confidence tiers
0.9 / 0.85 / 0.8, falling back to NEUTRAL when only the RSI condition
fires.  To be compared against `analyze_market`. -/
def spec_decision (rsi : Option ℚ) (divergence : ℚ) (bbBullish bbBearish : Bool)
    (price support resistance : ℚ) : String × ℚ :=
  if nanLt rsi (some 30) then
    (if 10 < divergence then ("UP", 9 / 10)
     else if bbBullish then ("UP", 85 / 100)
     else if |price - support| / price < 5 / 1000 then ("UP", 8 / 10)
     else ("NEUTRAL", 0))
  else if nanLt (some 70) rsi then
    (if divergence < -10 then ("DOWN", 9 / 10)
     else if bbBearish then ("DOWN", 85 / 100)
     else if |price - resistance| / price < 5 / 1000 then ("DOWN", 8 / 10)
     else ("NEUTRAL", 0))
  else ("NEUTRAL", 0)

/-- A position dictionary as built by `RiskManager.record_position`
(`src/risk_manager.py`).  Fields that are only logged (binance symbol,
support/resistance levels, spot price at entry) are omitted; none of the
modelled operations reads them. -/
structure Position where
  asset : String
  side : String
  size : ℚ
  shares : ℚ
  token_id : String
  order_id : String
  entry_price : ℚ
  condition_id : Option String
  expiry : ℚ
  entry_time : ℚ
deriving DecidableEq

/-- State of a `RiskManager` instance. -/
structure RiskManager where
  initial_capital : ℚ
  current_capital : ℚ
  max_positions : ℕ
  stop_loss_pct : ℚ
  take_profit_pct : ℚ
  position_size_pct : ℚ
  max_total_exposure_pct : ℚ
  min_stake : ℚ
  active_positions : List Position
  total_pnl : ℚ
deriving DecidableEq

/-- `RiskManager.get_current_exposure`: total USD at risk. -/
def get_current_exposure (st : RiskManager) : ℚ :=
  (st.active_positions.map (fun p => p.size)).sum

/-- `RiskManager.update_capital(pnl)`. -/
def update_capital (st : RiskManager) (pnl : ℚ) : RiskManager :=
  { st with
    current_capital := st.current_capital + pnl
    total_pnl := st.total_pnl + pnl }

/-- `RiskManager.can_open_position(amount, asset)`: position-count check,
then exposure check, then duplicate-asset check. -/
def can_open_position (st : RiskManager) (amount : ℚ) (asset : String) :
    Bool :=
  if st.max_positions ≤ st.active_positions.length then false
  else if st.current_capital * st.max_total_exposure_pct
            < get_current_exposure st + amount then false
  else if st.active_positions.any (fun p => p.asset == asset) then false
  else true

/-- Python truthiness of an optional number (`x or default` takes the
default when `x` is `None` or `0`). -/
def orDefault (x : Option ℚ) (d : ℚ) : ℚ :=
  match x with
  | none => d
  | some v => if v = 0 then d else v

/-- `RiskManager.record_position(...)`: appends the new position dictionary;
`expiry` defaults to 15 minutes from now and `shares` to
`size / entry_price` (0 for a non-positive entry price), both via Python
`or`-defaulting. -/
def record_position (st : RiskManager) (asset side : String) (size : ℚ)
    (token_id order_id : String) (entry_price : ℚ) (expiry : Option ℚ)
    (condition_id : Option String) (shares : Option ℚ) (now : ℚ) :
    RiskManager :=
  let pos : Position :=
    { asset := asset
      side := side
      size := size
      shares := orDefault shares (if 0 < entry_price then size / entry_price else 0)
      token_id := token_id
      order_id := order_id
      entry_price := entry_price
      condition_id := condition_id
      expiry := orDefault expiry (now + 900)
      entry_time := now }
  { st with active_positions := st.active_positions ++ [pos] }

/-- Environment of one `execute_exit` call: either the order-book fetch or
order placement raised, or the book came back with the given bid prices
(best first) and the subsequent `place_order` reported the given success
flag. -/
inductive ExitEnv where
  | exn : ExitEnv
  | book : List ℚ → Bool → ExitEnv
deriving DecidableEq

/-- Return dictionary of `execute_exit`. -/
structure ExitResult where
  success : Bool
  pnl : Option ℚ
  exit_price : Option ℚ
deriving DecidableEq

/-- Best bid available in an exit environment, if any. -/
def envBestBid (env : ExitEnv) : Option ℚ :=
  match env with
  | ExitEnv.book (b :: _) _ => some b
  | _ => none

/-- Embedding of `RiskManager.execute_exit(engine, position)`: guard on a
positive share count, fetch the best bid, place the sell order; on success
compute `pnl = (best_bid - entry_price) * shares` and drop every active
position with the exited token id; on any failure leave the state alone. -/
def execute_exit (st : RiskManager) (position : Position) (env : ExitEnv) :
    ExitResult × RiskManager :=
  if position.shares ≤ 0 then
    ({ success := false, pnl := none, exit_price := none }, st)
  else
    match env with
    | ExitEnv.exn => ({ success := false, pnl := none, exit_price := none }, st)
    | ExitEnv.book [] _ =>
        ({ success := false, pnl := none, exit_price := none }, st)
    | ExitEnv.book (best_bid :: _) ok =>
        if ok then
          ({ success := true
             pnl := some ((best_bid - position.entry_price) * position.shares)
             exit_price := some best_bid },
           { st with
             active_positions :=
               st.active_positions.filter
                 (fun p => p.token_id != position.token_id) })
        else ({ success := false, pnl := none, exit_price := none }, st)

/-- Embedding of `RiskManager.cleanup_expired_positions(current_usdc_balance)`:
keeps exactly the positions with `expiry > now - 300` (the CTF-redeem
attempts on the expired ones are external I/O and change no state), and
overwrites the tracked capital when an external balance is supplied. -/
def cleanup_expired_positions (st : RiskManager) (now : ℚ)
    (current_usdc_balance : Option ℚ) : RiskManager :=
  let kept := st.active_positions.filter (fun p => decide (now - 300 < p.expiry))
  match current_usdc_balance with
  | none => { st with active_positions := kept }
  | some b => { st with active_positions := kept, current_capital := b }

/-- One mutation of the risk manager state, as the orchestrator drives it:
an admission-checked recording, a capital update, an exit attempt, or an
expiry cleanup with optional balance sync. -/
inductive RMStep : RiskManager → RiskManager → Prop
  | record (st : RiskManager) (asset side : String) (size : ℚ)
      (token_id order_id : String) (entry_price : ℚ) (expiry : Option ℚ)
      (condition_id : Option String) (shares : Option ℚ) (now : ℚ)
      (hadm : can_open_position st size asset = true) :
      RMStep st (record_position st asset side size token_id order_id
        entry_price expiry condition_id shares now)
  | update (st : RiskManager) (pnl : ℚ) :
      RMStep st (update_capital st pnl)
  | exits (st : RiskManager) (pos : Position) (env : ExitEnv) :
      RMStep st (execute_exit st pos env).2
  | cleanup (st : RiskManager) (now : ℚ) (bal : Option ℚ) :
      RMStep st (cleanup_expired_positions st now bal)

/-- Capital-monotone risk-manager steps: as `RMStep`, but recorded sizes
are non-negative (as every real stake is), capital updates are
non-negative, and a balance sync never lowers the tracked capital —
exactly the restrictions the exposure counterexample exploits. -/
inductive RMStepMono : RiskManager → RiskManager → Prop
  | record (st : RiskManager) (asset side : String) (size : ℚ)
      (token_id order_id : String) (entry_price : ℚ) (expiry : Option ℚ)
      (condition_id : Option String) (shares : Option ℚ) (now : ℚ)
      (hsize : 0 ≤ size)
      (hadm : can_open_position st size asset = true) :
      RMStepMono st (record_position st asset side size token_id order_id
        entry_price expiry condition_id shares now)
  | update (st : RiskManager) (pnl : ℚ) (hpnl : 0 ≤ pnl) :
      RMStepMono st (update_capital st pnl)
  | exits (st : RiskManager) (pos : Position) (env : ExitEnv) :
      RMStepMono st (execute_exit st pos env).2
  | cleanup (st : RiskManager) (now : ℚ) (bal : Option ℚ)
      (hbal : ∀ b, bal = some b → st.current_capital ≤ b) :
      RMStepMono st (cleanup_expired_positions st now bal)

/-- Lower-reversal detection transcribed from the specification's words:
some bar of a window of `lookback` bars EXCLUDING the current one (offsets
2 to `lookback+1` from the end) closed strictly below its contemporaneous
band value, and the current close is back strictly inside.  To be compared
with `detect_bb_lower_reversal`. -/
def spec_bb_lower_reversal (close : List ℚ) (band : List (Option ℚ))
    (lookback : ℕ) : Bool :=
  ((List.range lookback).any (fun j =>
      nanLt (ilocNeg close (j + 2)) ((ilocNeg band (j + 2)).join)))
    && nanLt ((ilocNeg band 1).join) (ilocNeg close 1)

/-- Close series for the reversal-window counterexample: the pierce below
the band happens four bars from the end, outside the window the code
actually scans. -/
def ceClose : List ℚ := [100, 90, 100, 100, 100]

/-- Constant band series for the reversal-window counterexample. -/
def ceBand : List (Option ℚ) :=
  [some 95, some 95, some 95, some 95, some 95]

/-- A fully populated position dictionary with the given expiry, used by
the concrete scenarios. -/
def posWithExpiry (e : ℚ) : Position :=
  { asset := "BTC"
    side := "UP"
    size := 5
    shares := 10
    token_id := "tokB"
    order_id := "ordB"
    entry_price := 1 / 2
    condition_id := none
    expiry := e
    entry_time := 0 }

/-- A freshly initialized risk manager: capital 100, at most 2 positions,
10% aggregate exposure cap, no open positions (the `__init__` state with
`INITIAL_CAPITAL = 100`). -/
def rmFresh : RiskManager :=
  { initial_capital := 100
    current_capital := 100
    max_positions := 2
    stop_loss_pct := 1 / 5
    take_profit_pct := 3 / 10
    position_size_pct := 1 / 20
    max_total_exposure_pct := 1 / 10
    min_stake := 1
    active_positions := []
    total_pnl := 0 }

/-- The fresh risk manager carrying the given open positions. -/
def rmWithPositions (ps : List Position) : RiskManager :=
  { rmFresh with active_positions := ps }

/-- An open 8-dollar BTC position, for the admission scenario. -/
def examplePosition : Position :=
  { asset := "BTC"
    side := "UP"
    size := 8
    shares := 16
    token_id := "tokA"
    order_id := "ordA"
    entry_price := 1 / 2
    condition_id := none
    expiry := 900
    entry_time := 0 }

/-- Risk manager with capital 100, 10% exposure cap and one active
8-dollar position — the admission scenario's state. -/
def exampleRM : RiskManager := rmWithPositions [examplePosition]

/-- State after the exposure counterexample's admitted recording: an
8-dollar position against capital 100. -/
def rmCe1 : RiskManager :=
  record_position rmFresh "BTC" "UP" 8 "tokC" "ordC" (1 / 2) none none none 0

/-- State after the exposure counterexample's losing capital update:
capital 5, but the 8-dollar position is still open. -/
def rmCe2 : RiskManager := update_capital rmCe1 (-95)

/-- Two open positions sharing a token id (same market outcome token held
for both assets), for the exit frame-effect scenario. -/
def sharedTokA : Position :=
  { asset := "BTC"
    side := "UP"
    size := 5
    shares := 10
    token_id := "tokShared"
    order_id := "ordX"
    entry_price := 2 / 5
    condition_id := none
    expiry := 900
    entry_time := 0 }

/-- Second position with the same token id as `sharedTokA`. -/
def sharedTokB : Position :=
  { asset := "ETH"
    side := "UP"
    size := 4
    shares := 8
    token_id := "tokShared"
    order_id := "ordY"
    entry_price := 1 / 2
    condition_id := none
    expiry := 900
    entry_time := 0 }

/-! Theorems. -/

/-- C6: for every price history shorter than `bollinger_period + 5` bars
and every external probability, `analyze_market` returns the NEUTRAL
result whose confidence, RSI, spot-change, divergence, support and
resistance are all zero and whose reversal flag is false. -/
theorem analyze_short_history_neutral (p : ℕ) (history : List ℚ) (odds : ℚ)
    (h : history.length < 25) :
    analyze_market (mkSwingStrategy p) history odds =
      { signal := "NEUTRAL"
        confidence := 0
        rsi := some 0
        spot_change_pct := 0
        divergence := 0
        bb_reversal := false
        support := 0
        resistance := 0 } := by
  unfold analyze_market
  rw [if_pos]
  · rfl
  · simpa [mkSwingStrategy] using h

/-- Witness for `analyze_short_history_neutral` at the empty history. -/
theorem analyze_short_history_neutral_witness :
    ([] : List ℚ).length < 25 ∧
      analyze_market (mkSwingStrategy 14) [] (1 / 2) =
        { signal := "NEUTRAL"
          confidence := 0
          rsi := some 0
          spot_change_pct := 0
          divergence := 0
          bb_reversal := false
          support := 0
          resistance := 0 } :=
  ⟨by decide, analyze_short_history_neutral 14 [] (1 / 2) (by decide)⟩

/-- C3: `can_open_position` returns false exactly when the position count
is at capacity, or the new exposure would strictly exceed the capital
fraction, or the asset is already held; and in the concrete scenario with
capital 100, 10% cap and one 8-dollar position, `can_open(3, ETH)` is
false while `can_open(2, ETH)` is true. -/
theorem can_open_position_spec :
    (∀ (st : RiskManager) (amount : ℚ) (asset : String),
      can_open_position st amount asset = false ↔
        (st.max_positions ≤ st.active_positions.length ∨
         st.current_capital * st.max_total_exposure_pct
           < get_current_exposure st + amount ∨
         ∃ p ∈ st.active_positions, p.asset = asset))
    ∧ can_open_position exampleRM 3 "ETH" = false
    ∧ can_open_position exampleRM 2 "ETH" = true := by
  refine ⟨?_,
    by norm_num [can_open_position, exampleRM, rmWithPositions, rmFresh,
      examplePosition, get_current_exposure],
    by
      norm_num [can_open_position, exampleRM, rmWithPositions, rmFresh,
        examplePosition, get_current_exposure]
      decide⟩
  intro st amount asset
  unfold can_open_position
  split_ifs with h1 h2 h3
  · exact iff_of_true rfl (Or.inl h1)
  · exact iff_of_true rfl (Or.inr (Or.inl h2))
  · refine iff_of_true rfl (Or.inr (Or.inr ?_))
    rcases List.any_eq_true.mp h3 with ⟨q, hq, hqa⟩
    exact ⟨q, hq, by simpa using hqa⟩
  · refine iff_of_false (by simp) ?_
    rintro (h | h | ⟨q, hq, hqa⟩)
    · exact h1 h
    · exact h2 h
    · exact h3 (List.any_eq_true.mpr ⟨q, hq, by simpa using hqa⟩)

/-- C5 counterexample: a position whose expiry is exactly 300 seconds in
the past is not "more than the grace buffer in the past", yet cleanup
removes it. -/
theorem cleanup_boundary_counterexample :
    ¬ (300 < (1000 : ℚ) - 700) ∧
      (cleanup_expired_positions (rmWithPositions [posWithExpiry 700]) 1000
          none).active_positions = [] := by
  constructor
  · norm_num
  · norm_num [cleanup_expired_positions, rmWithPositions, rmFresh,
      posWithExpiry, List.filter]

/-- C5 amended: cleanup keeps exactly the positions whose expiry is less
than 300 seconds in the past (`expiry > now - 300`, so expiry at least 300
seconds back is removed); a position 400 seconds past expiry is removed
while one 100 seconds past is retained; and a supplied external balance
unconditionally overwrites the tracked capital. -/
theorem cleanup_spec_amended :
    (∀ (st : RiskManager) (now : ℚ) (bal : Option ℚ) (p : Position),
      p ∈ (cleanup_expired_positions st now bal).active_positions ↔
        (p ∈ st.active_positions ∧ now - 300 < p.expiry))
    ∧ (∀ (st : RiskManager) (now b : ℚ),
        (cleanup_expired_positions st now (some b)).current_capital = b)
    ∧ (∀ now : ℚ,
        (cleanup_expired_positions
            (rmWithPositions [posWithExpiry (now - 400), posWithExpiry (now - 100)])
            now none).active_positions = [posWithExpiry (now - 100)]) := by
  refine ⟨?_, ?_, ?_⟩
  · intro st now bal p
    cases bal <;>
      simp [cleanup_expired_positions, List.mem_filter]
  · intro st now b
    simp [cleanup_expired_positions]
  · intro now
    simp only [cleanup_expired_positions, rmWithPositions, rmFresh,
      List.filter, posWithExpiry]
    norm_num

/-- C2 counterexample: against the claim's window (three bars excluding
the current one), a pierce four bars from the end with a reclaimed close
should be a reversal, but the code scans only the last three bars
including the current one and reports none. -/
theorem bb_reversal_window_counterexample :
    spec_bb_lower_reversal ceClose ceBand 3 = true ∧
      detect_bb_lower_reversal ceClose ceBand 3 = false := by
  constructor
  · decide
  · decide

/-- C2 amended: lower (resp. upper) reversal detection returns true
exactly when both series have at least `lookback + 1` entries, some bar of
the last `lookback` bars INCLUDING the current one closed strictly below
(resp. above) its contemporaneous band value, and the current close is
back strictly inside the band. -/
theorem bb_reversal_window_amended (close : List ℚ) (band : List (Option ℚ))
    (lookback : ℕ) :
    (detect_bb_lower_reversal close band lookback = true ↔
      (lookback + 1 ≤ close.length ∧ lookback + 1 ≤ band.length ∧
       (∃ j, j < lookback ∧
          nanLt (ilocNeg close (j + 1)) ((ilocNeg band (j + 1)).join) = true) ∧
       nanLt ((ilocNeg band 1).join) (ilocNeg close 1) = true))
    ∧ (detect_bb_upper_reversal close band lookback = true ↔
      (lookback + 1 ≤ close.length ∧ lookback + 1 ≤ band.length ∧
       (∃ j, j < lookback ∧
          nanLt ((ilocNeg band (j + 1)).join) (ilocNeg close (j + 1)) = true) ∧
       nanLt (ilocNeg close 1) ((ilocNeg band 1).join) = true)) := by
  constructor
  · unfold detect_bb_lower_reversal
    split_ifs with hlen
    · refine iff_of_false (by simp) ?_
      rintro ⟨h1, h2, -⟩
      rcases hlen with h | h <;> omega
    · push_neg at hlen
      simp [List.any_eq_true, List.mem_range, hlen.1, hlen.2]
  · unfold detect_bb_upper_reversal
    split_ifs with hlen
    · refine iff_of_false (by simp) ?_
      rintro ⟨h1, h2, -⟩
      rcases hlen with h | h <;> omega
    · push_neg at hlen
      simp [List.any_eq_true, List.mem_range, hlen.1, hlen.2]

/-- Helper characterizing `execute_exit` on both the success and the
failure paths; shared by the exit theorems below. -/
theorem exit_success_characterization (st : RiskManager) (position : Position)
    (env : ExitEnv) :
    ((execute_exit st position env).1.success = true →
      ((execute_exit st position env).1.pnl
          = (envBestBid env).map (fun b => (b - position.entry_price) * position.shares)
        ∧ (execute_exit st position env).1.exit_price = envBestBid env
        ∧ (execute_exit st position env).2.current_capital = st.current_capital
        ∧ (execute_exit st position env).2.total_pnl = st.total_pnl
        ∧ (execute_exit st position env).2.active_positions
            = st.active_positions.filter
                (fun p => p.token_id != position.token_id)))
    ∧ ((execute_exit st position env).1.success = false →
        (execute_exit st position env).2 = st) := by
  unfold execute_exit
  split_ifs with hsh
  · exact ⟨fun h => by simp at h, fun _ => rfl⟩
  · cases env with
    | exn => exact ⟨fun h => by simp at h, fun _ => rfl⟩
    | book bids ok =>
        cases bids with
        | nil => exact ⟨fun h => by simp at h, fun _ => rfl⟩
        | cons b rest =>
            cases ok with
            | false => exact ⟨fun h => by simp at h, fun _ => rfl⟩
            | true => exact ⟨fun _ => ⟨rfl, rfl, rfl, rfl, rfl⟩,
                fun h => by simp at h⟩

/-- C7: a successful exit reports `pnl = (best_bid - entry_price) * shares`
with the best available bid as exit price, removes the exited token's
positions from the active set and leaves capital (and the tracked PnL
total) untouched; any failed exit leaves the whole state unchanged. -/
theorem execute_exit_spec (st : RiskManager) (position : Position)
    (env : ExitEnv) :
    ((execute_exit st position env).1.success = true →
      ((execute_exit st position env).1.pnl
          = (envBestBid env).map (fun b => (b - position.entry_price) * position.shares)
        ∧ (execute_exit st position env).1.exit_price = envBestBid env
        ∧ (execute_exit st position env).2.current_capital = st.current_capital
        ∧ (execute_exit st position env).2.total_pnl = st.total_pnl
        ∧ (execute_exit st position env).2.active_positions
            = st.active_positions.filter
                (fun p => p.token_id != position.token_id)))
    ∧ ((execute_exit st position env).1.success = false →
        (execute_exit st position env).2 = st) :=
  exit_success_characterization st position env

/-- Witness for `execute_exit_spec`: a concrete successful exit keeps the
capital figure unchanged. -/
theorem execute_exit_spec_witness :
    (execute_exit (rmWithPositions [examplePosition]) examplePosition
        (ExitEnv.book [1 / 2] true)).1.success = true
    ∧ (execute_exit (rmWithPositions [examplePosition]) examplePosition
        (ExitEnv.book [1 / 2] true)).2.current_capital
        = (rmWithPositions [examplePosition]).current_capital := by
  have hs : (execute_exit (rmWithPositions [examplePosition]) examplePosition
      (ExitEnv.book [1 / 2] true)).1.success = true := by
    norm_num [execute_exit, examplePosition]
  exact ⟨hs, ((execute_exit_spec (rmWithPositions [examplePosition])
    examplePosition (ExitEnv.book [1 / 2] true)).1 hs).2.2.1⟩

/-- C10: a successful exit removes every active position sharing the
exited position's token id, and keeps every position with a different
token id. -/
theorem execute_exit_removes_token_id (st : RiskManager) (position : Position)
    (env : ExitEnv)
    (hsucc : (execute_exit st position env).1.success = true) :
    (∀ q ∈ st.active_positions, q.token_id = position.token_id →
        q ∉ (execute_exit st position env).2.active_positions)
    ∧ (∀ q ∈ st.active_positions, q.token_id ≠ position.token_id →
        q ∈ (execute_exit st position env).2.active_positions) := by
  have hfilter : (execute_exit st position env).2.active_positions
      = st.active_positions.filter
          (fun p => p.token_id != position.token_id) :=
    ((exit_success_characterization st position env).1 hsucc).2.2.2.2
  rw [hfilter]
  constructor
  · intro q _ hq hmem
    rcases List.mem_filter.mp hmem with ⟨-, hne⟩
    simp [hq] at hne
  · intro q hqmem hq
    exact List.mem_filter.mpr ⟨hqmem, by simpa using hq⟩

/-- Witness for `execute_exit_removes_token_id`: with two positions
sharing a token id, exiting the first also removes the second. -/
theorem execute_exit_removes_token_id_witness :
    sharedTokB ∉ (execute_exit (rmWithPositions [sharedTokA, sharedTokB])
        sharedTokA (ExitEnv.book [1 / 2] true)).2.active_positions := by
  have hs : (execute_exit (rmWithPositions [sharedTokA, sharedTokB])
      sharedTokA (ExitEnv.book [1 / 2] true)).1.success = true := by
    norm_num [execute_exit, sharedTokA]
  exact (execute_exit_removes_token_id (rmWithPositions [sharedTokA, sharedTokB])
    sharedTokA (ExitEnv.book [1 / 2] true) hs).1 sharedTokB
    (by simp [rmWithPositions, rmFresh]) rfl

/-- Every per-bar gain is non-negative. -/
theorem gainsList_nonneg (xs : List ℚ) : ∀ x ∈ gainsList xs, 0 ≤ x := by
  intro x hx
  rcases List.mem_map.mp hx with ⟨d, -, rfl⟩
  cases d with
  | none => norm_num
  | some v =>
      by_cases hv : 0 < v
      · simpa [hv] using le_of_lt hv
      · simp [hv]

/-- Every per-bar loss is non-negative. -/
theorem lossesList_nonneg (xs : List ℚ) : ∀ x ∈ lossesList xs, 0 ≤ x := by
  intro x hx
  rcases List.mem_map.mp hx with ⟨d, -, rfl⟩
  cases d with
  | none => norm_num
  | some v =>
      by_cases hv : v < 0
      · have hnn : (0 : ℚ) ≤ -v := by linarith
        simpa [hv] using hnn
      · simp [hv]

/-- A rolling mean of a series of non-negative entries is non-negative. -/
theorem rollingMeanAt_nonneg (xs : List ℚ) (period i : ℕ) (m : ℚ)
    (hxs : ∀ x ∈ xs, 0 ≤ x) (hm : rollingMeanAt xs period i = some m) :
    0 ≤ m := by
  unfold rollingMeanAt windowAt at hm
  split_ifs at hm with hcond
  · simp only [Option.map_some', Option.some_inj] at hm
    subst hm
    apply div_nonneg
    · apply List.sum_nonneg
      intro x hxmem
      exact hxs x (List.take_subset _ _ (List.drop_subset _ _ hxmem))
    · exact_mod_cast Nat.zero_le period
  · simp at hm

/-- C8: whenever the window's average gain plus average loss is strictly
positive, the RSI value at that bar is defined and lies in [0, 100]; and
with zero average loss and positive average gain it is exactly 100. -/
theorem rsi_bounded (close : List ℚ) (period i : ℕ) (g l : ℚ)
    (hg : rollingMeanAt (gainsList close) period i = some g)
    (hl : rollingMeanAt (lossesList close) period i = some l) :
    (0 < g + l → rsiAt close period i ≠ none)
    ∧ (0 < g + l → ∀ r, rsiAt close period i = some r → 0 ≤ r ∧ r ≤ 100)
    ∧ (l = 0 → 0 < g → rsiAt close period i = some 100) := by
  have hg0 : 0 ≤ g := rollingMeanAt_nonneg _ _ _ _ (gainsList_nonneg close) hg
  have hl0 : 0 ≤ l := rollingMeanAt_nonneg _ _ _ _ (lossesList_nonneg close) hl
  have hrsi : rsiAt close period i = rsiFromAvg g l := by
    simp [rsiAt, hg, hl]
  refine ⟨?_, ?_, ?_⟩
  · intro hpos
    rw [hrsi]
    unfold rsiFromAvg
    by_cases hlz : l = 0
    · have hgpos : g ≠ 0 := by
        intro h0
        rw [h0, hlz] at hpos
        norm_num at hpos
      simp [hlz, hgpos]
    · simp [hlz]
  · intro hpos r hr
    rw [hrsi] at hr
    by_cases hlz : l = 0
    · subst hlz
      have hgpos : g ≠ 0 := by
        intro h0
        rw [h0] at hpos
        norm_num at hpos
      rw [show rsiFromAvg g 0 = some 100 by simp [rsiFromAvg, hgpos],
        Option.some_inj] at hr
      constructor
      · rw [← hr]; norm_num
      · rw [← hr]
    · rw [show rsiFromAvg g l = some (100 - 100 / (1 + g / l)) by
        simp [rsiFromAvg, hlz], Option.some_inj] at hr
      have hq : 0 ≤ g / l := div_nonneg hg0 hl0
      have h1q : (1 : ℚ) ≤ 1 + g / l := by linarith
      have hfrac_pos : 0 < 100 / (1 + g / l) := by positivity
      have hfrac_le : 100 / (1 + g / l) ≤ 100 :=
        div_le_self (by norm_num) h1q
      constructor
      · rw [← hr]; linarith
      · rw [← hr]; linarith
  · intro hlz hgpos
    rw [hrsi]
    simp [rsiFromAvg, hlz, ne_of_gt hgpos]

/-- Witness for `rsi_bounded`: on closes 1, 2, 3 with period 2 the average
loss is zero and the average gain positive, so the latest RSI is 100. -/
theorem rsi_bounded_witness : rsiAt [1, 2, 3] 2 2 = some 100 :=
  (rsi_bounded [1, 2, 3] 2 2 1 0
    (by norm_num [rollingMeanAt, windowAt, gainsList, deltasList])
    (by norm_num [rollingMeanAt, windowAt, lossesList, deltasList])).2.2 rfl
    (by norm_num)

/-- On a constant price series every per-bar gain is zero. -/
theorem gainsList_replicate (n : ℕ) (c : ℚ) :
    gainsList (List.replicate n c) = List.replicate n 0 := by
  cases n with
  | zero => rfl
  | succ m =>
      have hz : List.zipWith (fun a b => some (a - b)) (List.replicate m c)
          (c :: List.replicate m c) = List.replicate m (some (0 : ℚ)) := by
        rw [show (c :: List.replicate m c) = List.replicate (m + 1) c from
          (List.replicate_succ c m).symm, List.zipWith_replicate,
          min_eq_left (Nat.le_succ m), sub_self]
      rw [List.replicate_succ]
      simp only [gainsList, deltasList]
      rw [hz]
      simp [List.map_replicate, List.replicate_succ]

/-- On a constant price series every per-bar loss is zero. -/
theorem lossesList_replicate (n : ℕ) (c : ℚ) :
    lossesList (List.replicate n c) = List.replicate n 0 := by
  cases n with
  | zero => rfl
  | succ m =>
      have hz : List.zipWith (fun a b => some (a - b)) (List.replicate m c)
          (c :: List.replicate m c) = List.replicate m (some (0 : ℚ)) := by
        rw [show (c :: List.replicate m c) = List.replicate (m + 1) c from
          (List.replicate_succ c m).symm, List.zipWith_replicate,
          min_eq_left (Nat.le_succ m), sub_self]
      rw [List.replicate_succ]
      simp only [lossesList, deltasList]
      rw [hz]
      simp [List.map_replicate, List.replicate_succ]

/-- On a constant price series both rolling averages are zero where they
are defined at all, so the RSI is NaN at every bar. -/
theorem rsiAt_replicate_eq_none (n p i : ℕ) (c : ℚ) :
    rsiAt (List.replicate n c) p i = none := by
  unfold rsiAt
  rw [gainsList_replicate, lossesList_replicate]
  cases hm : rollingMeanAt (List.replicate n 0) p i with
  | none => rfl
  | some m =>
      have hm0 : m = 0 := by
        unfold rollingMeanAt windowAt at hm
        split_ifs at hm with hc
        · simp only [Option.map_some', Option.some_inj] at hm
          rw [← hm]
          have hsum : (((List.replicate n (0 : ℚ)).take (i + 1)).drop
              (i + 1 - p)).sum = 0 := by
            rw [List.take_replicate, List.drop_replicate, List.sum_replicate]
            simp
          rw [hsum]
          simp
        · simp at hm
      subst hm0
      simp [rsiFromAvg]

/-- C9: on a flat price series of sufficient length the RSI is undefined,
neither RSI branch can fire, and the analysis is NEUTRAL with zero
confidence for every external probability. -/
theorem analyze_flat_neutral (c : ℚ) (n p : ℕ) (odds : ℚ) (h : 25 ≤ n) :
    (analyze_market (mkSwingStrategy p) (List.replicate n c) odds).signal
        = "NEUTRAL"
    ∧ (analyze_market (mkSwingStrategy p) (List.replicate n c) odds).confidence
        = 0 := by
  have hrsi : rsiLatest (List.replicate n c) p = none :=
    rsiAt_replicate_eq_none n p ((List.replicate n c).length - 1) c
  have hlen : ¬ (List.replicate n c).length < (mkSwingStrategy p).bb_period + 5 := by
    simp only [List.length_replicate, mkSwingStrategy]
    omega
  unfold analyze_market
  rw [if_neg hlen]
  simp [mkSwingStrategy, hrsi, nanLt]

/-- Witness for `analyze_flat_neutral` on 25 constant bars. -/
theorem analyze_flat_neutral_witness :
    25 ≤ 25
    ∧ (analyze_market (mkSwingStrategy 14) (List.replicate 25 (5 : ℚ))
        (1 / 2)).signal = "NEUTRAL"
    ∧ (analyze_market (mkSwingStrategy 14) (List.replicate 25 (5 : ℚ))
        (1 / 2)).confidence = 0 :=
  ⟨by norm_num,
   (analyze_flat_neutral 5 25 14 (1 / 2) (by norm_num)).1,
   (analyze_flat_neutral 5 25 14 (1 / 2) (by norm_num)).2⟩

/-- C1: for every sufficiently long history the signal and confidence of
`analyze_market` coincide with the specification's first-match decision
table applied to the computed indicator values (`spec_decision`); the
table's if/elif shape makes the oversold and overbought branches mutually
exclusive and the confirming conditions priority-ordered. -/
theorem strategy_decision_refines_spec (p : ℕ) (history : List ℚ)
    (odds : ℚ) (h : 25 ≤ history.length) :
    ((analyze_market (mkSwingStrategy p) history odds).signal,
      (analyze_market (mkSwingStrategy p) history odds).confidence)
      = spec_decision (rsiLatest history p)
          (detect_divergence (calculate_spot_change_pct history 1) odds)
          (bbBullishOf history 20 2) (bbBearishOf history 20 2)
          ((ilocNeg history 1).getD 0)
          (calculate_support_resistance history 20).1
          (calculate_support_resistance history 20).2 := by
  have hlen : ¬ history.length < (mkSwingStrategy p).bb_period + 5 := by
    simp only [mkSwingStrategy]
    omega
  unfold analyze_market
  rw [if_neg hlen]
  rfl

/-- Witness for `strategy_decision_refines_spec` on 25 constant bars. -/
theorem strategy_decision_refines_spec_witness :
    25 ≤ (List.replicate 25 (1 : ℚ)).length
    ∧ ((analyze_market (mkSwingStrategy 14) (List.replicate 25 (1 : ℚ))
          (1 / 2)).signal,
        (analyze_market (mkSwingStrategy 14) (List.replicate 25 (1 : ℚ))
          (1 / 2)).confidence)
        = spec_decision (rsiLatest (List.replicate 25 (1 : ℚ)) 14)
            (detect_divergence
              (calculate_spot_change_pct (List.replicate 25 (1 : ℚ)) 1) (1 / 2))
            (bbBullishOf (List.replicate 25 (1 : ℚ)) 20 2)
            (bbBearishOf (List.replicate 25 (1 : ℚ)) 20 2)
            ((ilocNeg (List.replicate 25 (1 : ℚ)) 1).getD 0)
            (calculate_support_resistance (List.replicate 25 (1 : ℚ)) 20).1
            (calculate_support_resistance (List.replicate 25 (1 : ℚ)) 20).2 :=
  ⟨by simp,
   strategy_decision_refines_spec 14 (List.replicate 25 (1 : ℚ)) (1 / 2)
     (by simp)⟩

/-- Filtering positions can only lower the aggregate exposure when all
sizes are non-negative. -/
theorem sum_filter_size_le (ps : List Position) (q : Position → Bool)
    (h : ∀ p ∈ ps, 0 ≤ p.size) :
    ((ps.filter q).map (fun p => p.size)).sum
      ≤ (ps.map (fun p => p.size)).sum := by
  induction ps with
  | nil => simp
  | cons a t ih =>
      have ha := h a (by simp)
      have ht : ∀ p ∈ t, 0 ≤ p.size := fun p hp => h p (by simp [hp])
      by_cases hq : q a
      · simp only [List.filter_cons, hq, if_pos, List.map_cons, List.sum_cons]
        exact add_le_add_left (ih ht) _
      · simp only [List.filter_cons, hq, Bool.false_eq_true, if_neg,
          List.map_cons, List.sum_cons, if_false]
        exact le_trans (ih ht) (le_add_of_nonneg_left ha)

/-- An admitted amount fits under the exposure cap. -/
theorem can_open_exposure (st : RiskManager) (amount : ℚ) (asset : String)
    (h : can_open_position st amount asset = true) :
    get_current_exposure st + amount
      ≤ st.current_capital * st.max_total_exposure_pct := by
  unfold can_open_position at h
  split_ifs at h with h1 h2 h3
  linarith [not_lt.mp h2]

/-- Recording adds exactly the committed size to the aggregate exposure. -/
theorem exposure_record (st : RiskManager) (asset side : String) (size : ℚ)
    (token_id order_id : String) (entry_price : ℚ) (expiry : Option ℚ)
    (condition_id : Option String) (shares : Option ℚ) (now : ℚ) :
    get_current_exposure (record_position st asset side size token_id
        order_id entry_price expiry condition_id shares now)
      = get_current_exposure st + size := by
  simp [record_position, get_current_exposure]

/-- An exit attempt either leaves the state alone or filters the active
set by token id, keeping all other fields. -/
theorem exit_state_shape (st : RiskManager) (position : Position)
    (env : ExitEnv) :
    (execute_exit st position env).2 = st
    ∨ (execute_exit st position env).2
        = { st with
            active_positions :=
              st.active_positions.filter
                (fun p => p.token_id != position.token_id) } := by
  unfold execute_exit
  split_ifs with hsh
  · exact Or.inl rfl
  · cases env with
    | exn => exact Or.inl rfl
    | book bids ok =>
        cases bids with
        | nil => exact Or.inl rfl
        | cons b rest =>
            cases ok with
            | false => exact Or.inl rfl
            | true => exact Or.inr rfl

/-- One capital-monotone step preserves the exposure invariant (together
with the non-negativity facts it needs). -/
theorem rmStepMono_preserves (st st' : RiskManager) (h : RMStepMono st st')
    (hpct : 0 ≤ st.max_total_exposure_pct)
    (hsizes : ∀ p ∈ st.active_positions, 0 ≤ p.size)
    (hexp : get_current_exposure st
        ≤ st.current_capital * st.max_total_exposure_pct) :
    0 ≤ st'.max_total_exposure_pct
    ∧ (∀ p ∈ st'.active_positions, 0 ≤ p.size)
    ∧ get_current_exposure st'
        ≤ st'.current_capital * st'.max_total_exposure_pct := by
  cases h with
  | record asset side size tid oid ep ex cid sh now hsize hadm =>
      refine ⟨hpct, ?_, ?_⟩
      · intro p hp
        simp only [record_position, List.mem_append, List.mem_singleton] at hp
        rcases hp with hp | rfl
        · exact hsizes p hp
        · exact hsize
      · rw [exposure_record]
        exact can_open_exposure st size asset hadm
  | update pnl hpnl =>
      refine ⟨hpct, hsizes, ?_⟩
      have hmono : st.current_capital * st.max_total_exposure_pct
          ≤ (st.current_capital + pnl) * st.max_total_exposure_pct :=
        mul_le_mul_of_nonneg_right (by linarith) hpct
      simp only [update_capital, get_current_exposure]
      exact le_trans hexp hmono
  | exits pos env =>
      rcases exit_state_shape st pos env with heq | heq
      · rw [heq]
        exact ⟨hpct, hsizes, hexp⟩
      · rw [heq]
        refine ⟨hpct, ?_, ?_⟩
        · intro p hp
          exact hsizes p (List.mem_of_mem_filter hp)
        · simp only [get_current_exposure]
          exact le_trans (sum_filter_size_le st.active_positions _ hsizes)
            hexp
  | cleanup now bal hbal =>
      cases bal with
      | none =>
          refine ⟨hpct, ?_, ?_⟩
          · intro p hp
            have hp2 : p ∈ st.active_positions ∧ now - 300 < p.expiry := by
              simpa [cleanup_expired_positions, List.mem_filter] using hp
            exact hsizes p hp2.1
          · simp only [cleanup_expired_positions, get_current_exposure]
            exact le_trans
              (sum_filter_size_le st.active_positions _ hsizes) hexp
      | some b =>
          refine ⟨hpct, ?_, ?_⟩
          · intro p hp
            have hp2 : p ∈ st.active_positions ∧ now - 300 < p.expiry := by
              simpa [cleanup_expired_positions, List.mem_filter] using hp
            exact hsizes p hp2.1
          · have hcap : st.current_capital ≤ b := hbal b rfl
            have hmono : st.current_capital * st.max_total_exposure_pct
                ≤ b * st.max_total_exposure_pct :=
              mul_le_mul_of_nonneg_right hcap hpct
            simp only [cleanup_expired_positions, get_current_exposure]
            exact le_trans
              (le_trans (sum_filter_size_le st.active_positions _ hsizes)
                hexp) hmono

/-- C4 counterexample: from a fresh state, record an admitted 8-dollar
position against capital 100, then book a 95-dollar loss; in the reachable
final state the open exposure (8) exceeds 10% of the remaining capital
(0.5), so the claimed invariant fails on states reachable through capital
updates. -/
theorem exposure_invariant_counterexample :
    Relation.ReflTransGen RMStep rmFresh rmCe2
    ∧ rmCe2.current_capital * rmCe2.max_total_exposure_pct
        < get_current_exposure rmCe2 := by
  constructor
  · have h1 : RMStep rmFresh rmCe1 :=
      RMStep.record rmFresh "BTC" "UP" 8 "tokC" "ordC" (1 / 2) none none
        none 0
        (by norm_num [can_open_position, rmFresh, get_current_exposure])
    have h2 : RMStep rmCe1 rmCe2 := RMStep.update rmCe1 (-95)
    exact Relation.ReflTransGen.head h1 (Relation.ReflTransGen.single h2)
  · norm_num [rmCe2, rmCe1, update_capital, record_position, rmFresh,
      get_current_exposure]

/-- C4 amended: along capital-monotone operation sequences — admission-
checked recordings of non-negative sizes, non-negative capital updates,
exits, and cleanups whose balance sync never lowers capital — the
aggregate exposure stays within `max_total_exposure_pct` of the current
capital, given a start state satisfying the bound with a non-negative
exposure fraction and non-negative position sizes. -/
theorem exposure_invariant_amended (st0 st : RiskManager)
    (hpct : 0 ≤ st0.max_total_exposure_pct)
    (hsizes : ∀ p ∈ st0.active_positions, 0 ≤ p.size)
    (hexp : get_current_exposure st0
        ≤ st0.current_capital * st0.max_total_exposure_pct)
    (h : Relation.ReflTransGen RMStepMono st0 st) :
    get_current_exposure st
      ≤ st.current_capital * st.max_total_exposure_pct := by
  have main : 0 ≤ st.max_total_exposure_pct
      ∧ (∀ p ∈ st.active_positions, 0 ≤ p.size)
      ∧ get_current_exposure st
          ≤ st.current_capital * st.max_total_exposure_pct := by
    induction h with
    | refl => exact ⟨hpct, hsizes, hexp⟩
    | tail hab hbc ih =>
        exact rmStepMono_preserves _ _ hbc ih.1 ih.2.1 ih.2.2
  exact main.2.2

/-- Witness for `exposure_invariant_amended` at the fresh state and the
empty operation sequence. -/
theorem exposure_invariant_amended_witness :
    get_current_exposure rmFresh
      ≤ rmFresh.current_capital * rmFresh.max_total_exposure_pct :=
  exposure_invariant_amended rmFresh rmFresh
    (by norm_num [rmFresh])
    (by simp [rmFresh])
    (by norm_num [rmFresh, get_current_exposure])
    Relation.ReflTransGen.refl

end Virgolino
